import Mathlib

/-!
Verification development for the svgToAndroidXml converter.

The Python sources under `src/converter/` are shallowly embedded below:
Python floats are modelled as rationals (`ℚ`, exact for every numeral the
claims evaluate), Python dicts as association lists with first-match
lookup and replace-or-append assignment, and SVG elements as a record of
tag, attribute list, and descendant `<stop>` list.  Fallible Python code
(`float(...)` inside `try`) is modelled with `Option`.  Python string
primitives (`strip`, `split`, `replace`, `startswith`, `lower`, slicing)
are re-implemented over the character list by structural recursion so
every definition evaluates inside the kernel.
-/

attribute [local semireducible] Rat.add Rat.mul Rat.sub Rat.inv

-- ### Python string primitives

/-- Python `s.strip()`. -/
def pyTrim (s : String) : String :=
  ⟨((s.data.dropWhile Char.isWhitespace).reverse.dropWhile Char.isWhitespace).reverse⟩

/-- Split a character list at every character satisfying `p`, keeping
empty pieces (the behaviour of Python `split` with an explicit
separator). -/
def splitPredAux (p : Char → Bool) : List Char → List Char → List (List Char)
  | [], acc => [acc.reverse]
  | c :: rest, acc =>
      if p c then acc.reverse :: splitPredAux p rest []
      else splitPredAux p rest (c :: acc)

/-- Python `s.split(sep)` for a one-character separator. -/
def pySplitChar (s : String) (sep : Char) : List String :=
  (splitPredAux (fun c => c = sep) s.data []).map (fun cs => ⟨cs⟩)

/-- Python `s.split()` (no argument): split on whitespace runs, dropping
empty pieces. -/
def pySplitWs (s : String) : List String :=
  ((splitPredAux Char.isWhitespace s.data []).filter (fun cs => cs ≠ [])).map
    (fun cs => ⟨cs⟩)

/-- Join strings with a one-character separator (inverse of
`pySplitChar`, used to model Python `split(sep, 1)` keeping the tail). -/
def joinWithChar (sep : Char) : List String → String
  | [] => ""
  | [s] => s
  | s :: rest => s ++ ⟨[sep]⟩ ++ joinWithChar sep rest

/-- Python `s.startswith(pre)`. -/
def pyStartsWith (s pre : String) : Bool :=
  pre.data.isPrefixOf s.data

/-- Python `s.endswith(suf)`. -/
def pyEndsWith (s suf : String) : Bool :=
  suf.data.isSuffixOf s.data

/-- Python `s.lower()`. -/
def pyToLower (s : String) : String :=
  ⟨s.data.map Char.toLower⟩

/-- Left-to-right non-overlapping substring replacement, fuelled by the
remaining length so the recursion is structural.  For a nonempty pattern
this is Python `s.replace(pat, repl)` (the program only replaces
`"px"`). -/
def replaceAux (pat repl : List Char) : Nat → List Char → List Char
  | _, [] => []
  | 0, l => l
  | fuel + 1, c :: rest =>
      if pat ≠ [] ∧ pat.isPrefixOf (c :: rest) then
        repl ++ replaceAux pat repl fuel (rest.drop (pat.length - 1))
      else c :: replaceAux pat repl fuel rest

/-- Python `s.replace(pat, repl)` for a nonempty pattern. -/
def pyReplace (s pat repl : String) : String :=
  ⟨replaceAux pat.data repl.data s.data.length s.data⟩

-- ### Python dicts

/-- A Python dict from string keys to values: association list, earliest
entry for a key is its value (assignments keep keys unique). -/
abbrev StyleMap := List (String × String)

/-- First-match lookup, `d.get(k)` on a Python dict. -/
def dictGet {α : Type} : List (String × α) → String → Option α
  | [], _ => none
  | (k', v) :: rest, k => if k' = k then some v else dictGet rest k

/-- Python `d[k] = v`: replace the entry in place when the key is
present, append otherwise. -/
def dictSet (d : StyleMap) (k v : String) : StyleMap :=
  if (dictGet d k).isSome then
    d.map (fun p => if p.1 = k then (k, v) else p)
  else
    d ++ [(k, v)]

/-- Python `target.update(src)`: assign every entry of `src` in order. -/
def pyDictUpdate (target src : StyleMap) : StyleMap :=
  src.foldl (fun acc p => dictSet acc p.1 p.2) target

-- ### SVG elements

/-- An SVG element as the converter sees it: tag (with namespace U-R-I
prefix in braces, as ElementTree renders it), attribute dict, and the
list returned by `findall('.//{http://www.w3.org/2000/svg}stop')` for
gradient elements (empty for non-gradient elements). -/
structure Elem where
  tag : String
  attrib : List (String × String)
  stops : List Elem

/-- `elem.attrib.get(k, dflt)`. -/
def attrGetD (e : Elem) (k dflt : String) : String :=
  (dictGet e.attrib k).getD dflt

-- ### Numbers

/-- Value of a digit string, most significant first. -/
def digitsToNat (cs : List Char) : Nat :=
  cs.foldl (fun acc c => 10 * acc + (c.toNat - 48)) 0

/-- Python `float(s)` on plain decimal literals: optional surrounding
whitespace, optional sign, digits with at most one `.` and at least one
digit.  `none` models the `ValueError` the callers catch.  (Exponent,
`inf`/`nan` and underscore forms are outside the fragment the program's
inputs in the claims use.)  Exact: every literal the claims evaluate is
a binary-representable value, so the `ℚ` result is the float's value. -/
def parseFloat? (s : String) : Option ℚ :=
  let cs := (pyTrim s).data
  let sgn : ℚ := match cs with
    | '-' :: _ => -1
    | _ => 1
  let cs := match cs with
    | '-' :: t => t
    | '+' :: t => t
    | t => t
  let intPart := cs.takeWhile Char.isDigit
  let rest := cs.dropWhile Char.isDigit
  match rest with
  | [] => if intPart.isEmpty then none else some (sgn * digitsToNat intPart)
  | '.' :: frac =>
      if frac.all Char.isDigit ∧ ¬(intPart.isEmpty ∧ frac.isEmpty) then
        some (sgn * ((digitsToNat intPart : ℚ) +
          (digitsToNat frac : ℚ) / (10 : ℚ) ^ frac.length))
      else none
  | _ => none

/-- Python `str(f)` / `"{}".format(f)` on a float: an integer value is
rendered with a trailing `.0` (`str(0.0) = "0.0"`, `str(10.0) =
"10.0"`).  Every value the claims render is integer-valued; the
non-integer branch is a stand-in repr never reached by the claims. -/
def pyFloatStr (q : ℚ) : String :=
  if q.den = 1 then toString q.num ++ ".0" else toString q

/-- Python `int(f)`: truncation toward zero. -/
def pyInt (q : ℚ) : ℤ :=
  if 0 ≤ q then ⌊q⌋ else ⌈q⌉

/-- Uppercase hexadecimal digits of a natural number. -/
def natToHex (n : Nat) : String :=
  String.mk ((Nat.toDigits 16 n).map Char.toUpper)

/-- Python `format(n, '02X')`: uppercase hex, zero-padded to two
characters (sign included in the width for negative values). -/
def pyFormat02X (n : ℤ) : String :=
  if n < 0 then "-" ++ natToHex n.natAbs
  else (if n.natAbs < 16 then "0" else "") ++ natToHex n.natAbs

-- ### shape_converter.py: style parsing and stop colors

/-- `parse_style` (shape_converter.py 209-228): split the CSS string on
`;`, keep the trimmed nonempty parts containing `:`, split each at the
first `:` and store trimmed key/value. -/
def parse_style (style : String) : StyleMap :=
  (pySplitChar style ';').foldl
    (fun acc part =>
      let part := pyTrim part
      if part ≠ "" then
        match pySplitChar part ':' with
        | key :: v :: rest =>
            dictSet acc (pyTrim key) (pyTrim (joinWithChar ':' (v :: rest)))
        | _ => acc
      else acc)
    []

/-- `extract_stop_color` (shape_converter.py 230-261): base color from
the `stop-color` attribute (default `#000000`), overridden by an inline
style's `stop-color`; opacity from the style's `stop-opacity`, falling
back to the attribute.  A parsed opacity is scaled by 255, truncated via
`int`, formatted as two uppercase hex digits, and prepended to a
7-character `#RRGGBB` color; a parse failure leaves the color as is. -/
def extract_stop_color (stop_elem : Elem) : String :=
  let style := attrGetD stop_elem "style" ""
  let color := attrGetD stop_elem "stop-color" "#000000"
  let sd := parse_style style
  let color := if style ≠ "" then (dictGet sd "stop-color").getD color else color
  let opacity :=
    if style ≠ "" then
      (dictGet sd "stop-opacity").getD (attrGetD stop_elem "stop-opacity" "")
    else attrGetD stop_elem "stop-opacity" ""
  if opacity ≠ "" then
    match parseFloat? opacity with
    | some op =>
        let hex := pyFormat02X (pyInt (op * 255))
        if color.data.length = 7 ∧ pyStartsWith color "#" then
          "#" ++ hex ++ (⟨color.data.drop 1⟩ : String)
        else color
    | none => color
  else color

-- ### shape_converter.py: gradients

/-- Python `value.strip('%')`: remove leading and trailing `%`. -/
def stripPercent (s : String) : String :=
  ⟨((s.data.dropWhile (fun c => c = '%')).reverse.dropWhile (fun c => c = '%')).reverse⟩

/-- `_convert_percentage` (shape_converter.py 263-284): a value ending in
`%` is resolved against `reference` and rendered with `str`; parse
failures and non-percentages pass through unchanged. -/
def convert_percentage (value : String) (reference : ℚ) : String :=
  if pyEndsWith value "%" then
    match parseFloat? (stripPercent value) with
    | some perc => pyFloatStr (perc * reference / 100)
    | none => value
  else value

/-- `_fmt_number` (shape_converter.py 286-305): re-render a numeric
string without the decimal point when the value is integral; parse
failures pass through. -/
def fmt_number (val : String) : String :=
  match parseFloat? val with
  | some f => if f.den = 1 then toString f.num else pyFloatStr f
  | none => val

/-- `_fmt_number` applied to a value that is already a Python float
(used by the ellipse gradient override, shape_converter.py 678-680). -/
def fmt_numberQ (q : ℚ) : String :=
  if q.den = 1 then toString q.num else pyFloatStr q

/-- One `<item>` of an emitted gradient: the dict
`{'android:offset': offset, 'android:color': color}`. -/
structure GradItem where
  offset : String
  color : String
deriving DecidableEq

/-- The gradient dict built by `convert_linear_gradient` /
`convert_radial_gradient`: `aapt_attr` flag, tag, attribute dict, and
stop items. -/
structure GradientStructure where
  aapt_attr : Bool
  tag : String
  attributes : List (String × String)
  items : List GradItem
deriving DecidableEq

/-- `convert_linear_gradient` (shape_converter.py 307-347): resolve
`x1,y1,x2,y2` (defaults `0%,0%,100%,0%`) against the viewport, and when
at least one `<stop>` exists emit a linear gradient whose two items take
the colors of the first and the last stop at offsets `"0"` and `"1"`.
`none` is the empty dict returned when there are no stops. -/
def convert_linear_gradient (grad_elem : Elem) (vp_width vp_height : ℚ) :
    Option GradientStructure :=
  let x1 := convert_percentage (attrGetD grad_elem "x1" "0%") vp_width
  let y1 := convert_percentage (attrGetD grad_elem "y1" "0%") vp_height
  let x2 := convert_percentage (attrGetD grad_elem "x2" "100%") vp_width
  let y2 := convert_percentage (attrGetD grad_elem "y2" "0%") vp_height
  match grad_elem.stops with
  | [] => none
  | s :: rest =>
      some
        { aapt_attr := true
          tag := "gradient"
          attributes := [("android:type", "linear"),
            ("android:startX", fmt_number x1), ("android:startY", fmt_number y1),
            ("android:endX", fmt_number x2), ("android:endY", fmt_number y2)]
          items := [⟨"0", extract_stop_color s⟩,
            ⟨"1", extract_stop_color ((s :: rest).getLast (List.cons_ne_nil s rest))⟩] }

/-- `convert_radial_gradient` (shape_converter.py 349-387): resolve
`cx,cy` (defaults `50%,50%`) against the viewport and `r` (default
`50%`) against `min(width, height)`; stops as in the linear case. -/
def convert_radial_gradient (grad_elem : Elem) (vp_width vp_height : ℚ) :
    Option GradientStructure :=
  let cx := convert_percentage (attrGetD grad_elem "cx" "50%") vp_width
  let cy := convert_percentage (attrGetD grad_elem "cy" "50%") vp_height
  let ref := min vp_width vp_height
  let r := convert_percentage (attrGetD grad_elem "r" "50%") ref
  match grad_elem.stops with
  | [] => none
  | s :: rest =>
      some
        { aapt_attr := true
          tag := "gradient"
          attributes := [("android:type", "radial"),
            ("android:centerX", fmt_number cx), ("android:centerY", fmt_number cy),
            ("android:gradientRadius", fmt_number r)]
          items := [⟨"0", extract_stop_color s⟩,
            ⟨"1", extract_stop_color ((s :: rest).getLast (List.cons_ne_nil s rest))⟩] }

/-- Python `tag.split('}')[-1].lower()`: local part of a namespaced tag,
lowercased. -/
def tagLocal (t : String) : String :=
  pyToLower ((pySplitChar t '}').getLastD "")

/-- Python `fill[fill.find('#')+1 : fill.find(')')].lower()`
(shape_converter.py 407): the id between `#` and `)`, with Python's
`-1`-on-absence slicing semantics. -/
def extract_grad_id (fill : String) : String :=
  let cs := fill.data
  let start := match cs.findIdx? (fun c => c = '#') with
    | some i => i + 1
    | none => 0
  let stop := match cs.findIdx? (fun c => c = ')') with
    | some i => i
    | none => cs.length - 1
  pyToLower ⟨(cs.take stop).drop start⟩

/-- `handle_gradient` (shape_converter.py 389-415): a fill of the form
`url(...)` is resolved through the registry; the first component records
whether a gradient definition was dispatched, the second is the
conversion result (`none` both for the `(False, {})` fallbacks and for a
dispatched definition with zero stops, which also returns `{}`). -/
def handle_gradient (fillv : String) (gradients : List (String × Elem))
    (vp_width vp_height : ℚ) : Bool × Option GradientStructure :=
  if pyStartsWith fillv "url(" then
    match dictGet gradients (extract_grad_id fillv) with
    | some grad_elem =>
        let tag := tagLocal grad_elem.tag
        if tag = "lineargradient" then
          (true, convert_linear_gradient grad_elem vp_width vp_height)
        else if tag = "radialgradient" then
          (true, convert_radial_gradient grad_elem vp_width vp_height)
        else (false, none)
    | none => (false, none)
  else (false, none)

-- ### shape_converter.py: fill and stroke extraction

/-- The dict built by `extract_fill_and_stroke` (and by the shape
converters for their style part).  `gradient` distinguishes key absence
(`none`) from a present key holding the empty dict (`some none`) or a
populated gradient (`some (some g)`). -/
structure FillStrokeResult where
  gradient : Option (Option GradientStructure)
  fillColor : Option String
  strokeColor : Option String
  strokeWidth : Option String
deriving DecidableEq

/-- The fill string computed by extract_fill_and_stroke
(shape_converter.py 433-442) before the gradient/solid branch: `fill`
attribute, overridden by an inline style's `fill` entry, with the
inherited style's `fill` as fallback when the result is empty. -/
def fill_value (elem : Elem) (inherited_style : Option StyleMap) : String :=
  let fill := attrGetD elem "fill" ""
  let style := attrGetD elem "style" ""
  let fill :=
    if style ≠ "" then
      match dictGet (parse_style style) "fill" with
      | some v => v
      | none => fill
    else fill
  if fill = "" then
    match inherited_style with
    | some inh =>
        match dictGet inh "fill" with
        | some v => v
        | none => fill
    | none => fill
  else fill

/-- The stroke string computed at shape_converter.py 450-454 (also the
body of `extract_stroke_and_width`): `stroke` attribute overridden by an
inline style's `stroke` entry; no inherited fallback. -/
def stroke_value (elem : Elem) : String :=
  let stroke := attrGetD elem "stroke" ""
  let style := attrGetD elem "style" ""
  if style ≠ "" then
    match dictGet (parse_style style) "stroke" with
    | some v => v
    | none => stroke
  else stroke

/-- `extract_fill_and_stroke` (shape_converter.py 417-460): resolve the
fill (gradient dispatch, else solid color with `default_fill` for an
empty string), then the optional stroke color and stroke width. -/
def extract_fill_and_stroke (elem : Elem) (gradients : List (String × Elem))
    (vp_width vp_height : ℚ) (default_fill : String)
    (inherited_style : Option StyleMap) : FillStrokeResult :=
  let fill := fill_value elem inherited_style
  let hg := handle_gradient fill gradients vp_width vp_height
  let base : FillStrokeResult :=
    if hg.1 then
      { gradient := some hg.2, fillColor := none,
        strokeColor := none, strokeWidth := none }
    else
      { gradient := none, fillColor := some (if fill ≠ "" then fill else default_fill),
        strokeColor := none, strokeWidth := none }
  let stroke := stroke_value elem
  let base := if stroke ≠ "" then { base with strokeColor := some stroke } else base
  let sw := attrGetD elem "stroke-width" ""
  if sw ≠ "" then { base with strokeWidth := some sw } else base

/-- `extract_stroke_and_width` (shape_converter.py 462-484): the
(strokeColor?, strokeWidth?) pair used by the ellipse converter. -/
def extract_stroke_and_width (elem : Elem) : Option String × Option String :=
  let stroke := stroke_value elem
  let strokeColor := if stroke ≠ "" then some stroke else none
  let sw := attrGetD elem "stroke-width" ""
  let strokeWidth := if sw ≠ "" then some sw else none
  (strokeColor, strokeWidth)

-- ### shape_converter.py: transforms and shape converters

/-- An affine matrix `(a, b, c, d, e, f)` standing for
`[[a, c, e], [b, d, f], [0, 0, 1]]`. -/
abbrev Matrix6 := ℚ × ℚ × ℚ × ℚ × ℚ × ℚ

/-- The identity matrix `(1, 0, 0, 1, 0, 0)`. -/
def idMatrix : Matrix6 := (1, 0, 0, 1, 0, 0)

/-- `apply_transform_to_point` (shape_converter.py 101-118). -/
def apply_transform_to_point (x y : ℚ) (m : Matrix6) : ℚ × ℚ :=
  let (a, b, c, d, e, f) := m
  (a * x + c * y + e, b * x + d * y + f)

/-- `multiply_matrices` (shape_converter.py 15-42). -/
def multiply_matrices (m1 m2 : Matrix6) : Matrix6 :=
  let (a1, b1, c1, d1, e1, f1) := m1
  let (a2, b2, c2, d2, e2, f2) := m2
  (a1 * a2 + c1 * b2, b1 * a2 + d1 * b2,
   a1 * c2 + c1 * d2, b1 * c2 + d1 * d2,
   a1 * e2 + c1 * f2 + e1, b1 * e2 + d1 * f2 + f1)

/-- The square of the radius emitted by `convert_circle_element` under a
non-identity transform (shape_converter.py 619-624): the center is
transformed in place, then `apply_transform_to_point(cx + r, cy)` is
called with the already transformed `cx, cy`, and the emitted radius is
`math.hypot(px - cx, py - cy)` — the square root of this value.  The
emitted radius equals `r` exactly when this value equals `r ^ 2` (both
are nonnegative). -/
def circle_transformed_radius_sq (cx cy r : ℚ) (m : Matrix6) : ℚ :=
  let c' := apply_transform_to_point cx cy m
  let p := apply_transform_to_point (c'.1 + r) c'.2 m
  (p.1 - c'.1) ^ 2 + (p.2 - c'.2) ^ 2

/-- The result dict of a shape converter: `android:pathData` plus the
fill/stroke entries. -/
structure ShapeResult where
  pathData : String
  fs : FillStrokeResult
deriving DecidableEq

/-- `convert_rect_element` (shape_converter.py 702-732): parse
`x, y, width, height` (defaults `'0'`), transform the four corners when
the matrix is not the identity, and render
`"M {0} {1} L {2} {3} L {4} {5} L {6} {7} Z"` with Python float
formatting.  `none` models the `ValueError` a non-numeric geometry
attribute raises. -/
def convert_rect_element (elem : Elem) (gradients : List (String × Elem))
    (vp_width vp_height : ℚ) (transform_matrix : Matrix6)
    (inherited_style : Option StyleMap) : Option ShapeResult :=
  match parseFloat? (attrGetD elem "x" "0"), parseFloat? (attrGetD elem "y" "0"),
      parseFloat? (attrGetD elem "width" "0"), parseFloat? (attrGetD elem "height" "0") with
  | some x, some y, some w, some h =>
      let pts := [(x, y), (x + w, y), (x + w, y + h), (x, y + h)]
      let pts :=
        if transform_matrix ≠ idMatrix then
          pts.map (fun p => apply_transform_to_point p.1 p.2 transform_matrix)
        else pts
      let p0 := pts.getD 0 (0, 0)
      let p1 := pts.getD 1 (0, 0)
      let p2 := pts.getD 2 (0, 0)
      let p3 := pts.getD 3 (0, 0)
      let d := "M " ++ pyFloatStr p0.1 ++ " " ++ pyFloatStr p0.2 ++
        " L " ++ pyFloatStr p1.1 ++ " " ++ pyFloatStr p1.2 ++
        " L " ++ pyFloatStr p2.1 ++ " " ++ pyFloatStr p2.2 ++
        " L " ++ pyFloatStr p3.1 ++ " " ++ pyFloatStr p3.2 ++ " Z"
      some ⟨d, extract_fill_and_stroke elem gradients vp_width vp_height "#000000"
        inherited_style⟩
  | _, _, _, _ => none

/-- `convert_ellipse_element` (shape_converter.py 632-700) in the
identity-transform case (the non-identity branch at 654-660 only
rescales `cx, cy, rx, ry` through `math.hypot` and touches nothing of
the style handling modelled here; every claim about this converter
quantifies over styles, not transforms).  Geometry parse failures are
`none`; the `inherited_style` parameter is bound exactly as in the
source signature.  A `url(...)` fill is overridden with a radial
gradient centered at `(cx, cy)` with radius `rx`, its items taken from
the referenced definition's first/last stops (empty if the reference is
unknown or stopless); otherwise the fill is the literal value or
`#000000`. -/
def convert_ellipse_element (elem : Elem) (gradients : List (String × Elem))
    (vp_width vp_height : ℚ) (inherited_style : Option StyleMap) :
    Option ShapeResult :=
  match parseFloat? (attrGetD elem "cx" "0"), parseFloat? (attrGetD elem "cy" "0"),
      parseFloat? (attrGetD elem "rx" "0"), parseFloat? (attrGetD elem "ry" "0") with
  | some cx, some cy, some rx, some ry =>
      let d := "M " ++ pyFloatStr (cx - rx) ++ " " ++ pyFloatStr cy ++
        " a " ++ pyFloatStr rx ++ " " ++ pyFloatStr ry ++ " 0 1 0 " ++
        pyFloatStr (2 * rx) ++ " 0" ++
        " a " ++ pyFloatStr rx ++ " " ++ pyFloatStr ry ++ " 0 1 0 -" ++
        pyFloatStr (2 * rx) ++ " 0"
      let style := attrGetD elem "style" ""
      let fill := attrGetD elem "fill" ""
      let fill :=
        if style ≠ "" then
          match dictGet (parse_style style) "fill" with
          | some v => v
          | none => fill
        else fill
      let sw := extract_stroke_and_width elem
      if pyStartsWith fill "url(" then
        let items :=
          match dictGet gradients (extract_grad_id fill) with
          | some grad_elem =>
              match grad_elem.stops with
              | [] => ([] : List GradItem)
              | s :: rest =>
                  [⟨"0", extract_stop_color s⟩,
                   ⟨"1", extract_stop_color ((s :: rest).getLast (List.cons_ne_nil s rest))⟩]
          | none => []
        let grad_structure : GradientStructure :=
          { aapt_attr := true
            tag := "gradient"
            attributes := [("android:type", "radial"),
              ("android:centerX", fmt_numberQ cx), ("android:centerY", fmt_numberQ cy),
              ("android:gradientRadius", fmt_numberQ rx)]
            items := items }
        some ⟨d, { gradient := some (some grad_structure), fillColor := none,
                   strokeColor := sw.1, strokeWidth := sw.2 }⟩
      else
        some ⟨d, { gradient := none,
                   fillColor := some (if fill ≠ "" then fill else "#000000"),
                   strokeColor := sw.1, strokeWidth := sw.2 }⟩
  | _, _, _, _ => none

-- ### converter_core.py: viewport dimensions

/-- The width/height fallback of `get_viewport_dimensions`
(converter_core.py 39-44): both attributes (defaults `'24'`) with every
`"px"` removed, parsed as floats; `(24, 24)` when either parse fails. -/
def viewport_fallback (svg_attrib : List (String × String)) : ℚ × ℚ :=
  match parseFloat? (pyReplace ((dictGet svg_attrib "width").getD "24") "px" ""),
      parseFloat? (pyReplace ((dictGet svg_attrib "height").getD "24") "px" "") with
  | some w, some h => (w, h)
  | _, _ => (24, 24)

/-- `get_viewport_dimensions` (converter_core.py 17-44): a truthy
`viewBox` with exactly 4 whitespace-separated parts whose 3rd and 4th
parse as floats wins; anything else falls through to
`viewport_fallback`. -/
def get_viewport_dimensions (svg_attrib : List (String × String)) : ℚ × ℚ :=
  match dictGet svg_attrib "viewBox" with
  | some vb =>
      if vb ≠ "" then
        let parts := pySplitWs vb
        if parts.length = 4 then
          match parseFloat? (parts.getD 2 ""), parseFloat? (parts.getD 3 "") with
          | some w, some h => (w, h)
          | _, _ => viewport_fallback svg_attrib
        else viewport_fallback svg_attrib
      else viewport_fallback svg_attrib
  | none => viewport_fallback svg_attrib

-- ### group_converter.py: style merging

/-- A heap of Python dict objects, addressed by list position.  Used to
state what `merge_styles` mutates: Python dict methods act on objects in
this store. -/
abbrev Store := List StyleMap

/-- `merge_styles` (group_converter.py 16-32) over an explicit object
store: `merged = parent_style.copy() if parent_style else {}` allocates
a fresh dict holding the parent's entries (copying the empty dict and
starting from `{}` coincide, which also models a `None` argument), and
`merged.update(child_style)` mutates only that fresh object.  Returns
the updated store and the address of the merged dict. -/
def merge_styles (σ : Store) (parent child : Nat) : Store × Nat :=
  let parent_entries := σ.getD parent []
  let child_entries := σ.getD child []
  let mergedAddr := σ.length
  let σ := σ ++ [parent_entries]
  let σ := σ.set mergedAddr (pyDictUpdate parent_entries child_entries)
  (σ, mergedAddr)

/-- The value computed by `merge_styles`, for call sites that only
consume the result: parent entries updated with the child's. -/
def merge_styles_val (parent child : StyleMap) : StyleMap :=
  pyDictUpdate parent child

/-- The merged style a group passes to its children
(group_converter.py 58-66): the parsed inline style (if a `style`
attribute exists), with a bare `fill` attribute injected when the style
has no `fill` entry, merged over the inherited style (`None` modelled as
the empty map). -/
def group_merged_style (elem : Elem) (inherited_style : StyleMap) : StyleMap :=
  let group_style :=
    if (dictGet elem.attrib "style").isSome then
      parse_style (attrGetD elem "style" "")
    else []
  let group_style :=
    if (dictGet group_style "fill").isNone ∧ (dictGet elem.attrib "fill").isSome then
      dictSet group_style "fill" (attrGetD elem "fill" "")
    else group_style
  merge_styles_val inherited_style group_style

-- ### Specification-side definition (for the refinement claim C1)

/-- Modelled from the spec: the fill precedence list "inline `style`
fill entry > element `fill` attribute > inherited style fill >
`defaultFill`", where an empty string at the attribute or inherited
stage means unset (the precedence theorem assumes a present inline
entry is nonempty). -/
def spec_fill_precedence (inline : Option String) (attrFill : String)
    (inheritedFill : Option String) (defaultFill : String) : String :=
  match inline with
  | some v => v
  | none =>
      if attrFill ≠ "" then attrFill
      else
        match inheritedFill with
        | some w => if w ≠ "" then w else defaultFill
        | none => defaultFill

-- ### Dictionary lemmas

theorem dictGet_cons (a b k : String) (rest : StyleMap) :
    dictGet ((a, b) :: rest) k = if a = k then some b else dictGet rest k := rfl

theorem dictGet_replace_ne (d : StyleMap) (k v k' : String) (hkk : k ≠ k') :
    dictGet (d.map (fun p => if p.1 = k then (k, v) else p)) k' = dictGet d k' := by
  induction d with
  | nil => rfl
  | cons p rest ih =>
      obtain ⟨a, b⟩ := p
      by_cases hp : a = k
      · subst hp
        simp [dictGet_cons, hkk, ih]
      · simp [dictGet_cons, hp, ih]

theorem dictGet_replace_eq (d : StyleMap) (k v : String)
    (h : (dictGet d k).isSome) :
    dictGet (d.map (fun p => if p.1 = k then (k, v) else p)) k = some v := by
  induction d with
  | nil => simp [dictGet] at h
  | cons p rest ih =>
      obtain ⟨a, b⟩ := p
      by_cases hp : a = k
      · subst hp
        simp [dictGet_cons]
      · rw [dictGet_cons, if_neg hp] at h
        simp [dictGet_cons, hp, ih h]

theorem dictGet_append_of_some (d : StyleMap) (k v k' : String) (w : String)
    (h : dictGet d k' = some w) :
    dictGet (d ++ [(k, v)]) k' = some w := by
  induction d with
  | nil => simp [dictGet] at h
  | cons p rest ih =>
      obtain ⟨a, b⟩ := p
      by_cases hp : a = k'
      · rw [dictGet_cons, if_pos hp] at h
        simp [dictGet_cons, hp, h]
      · rw [dictGet_cons, if_neg hp] at h
        simp [dictGet_cons, hp, ih h]

theorem dictGet_append_of_none (d : StyleMap) (k v k' : String)
    (h : dictGet d k' = none) :
    dictGet (d ++ [(k, v)]) k' = if k = k' then some v else none := by
  induction d with
  | nil => rfl
  | cons p rest ih =>
      obtain ⟨a, b⟩ := p
      by_cases hp : a = k'
      · rw [dictGet_cons, if_pos hp] at h
        exact absurd h (by simp)
      · rw [dictGet_cons, if_neg hp] at h
        simp [dictGet_cons, hp, ih h]

theorem dictGet_dictSet (d : StyleMap) (k v k' : String) :
    dictGet (dictSet d k v) k' = if k = k' then some v else dictGet d k' := by
  unfold dictSet
  by_cases h : (dictGet d k).isSome
  · rw [if_pos h]
    by_cases hkk : k = k'
    · subst hkk; rw [if_pos rfl, dictGet_replace_eq d k v h]
    · rw [if_neg hkk, dictGet_replace_ne d k v k' hkk]
  · rw [if_neg h]
    have hnone : dictGet d k = none := by
      cases hd : dictGet d k with
      | none => rfl
      | some w => rw [hd] at h; simp at h
    by_cases hkk : k = k'
    · subst hkk
      rw [if_pos rfl, dictGet_append_of_none d k v k hnone, if_pos rfl]
    · rw [if_neg hkk]
      cases hd : dictGet d k' with
      | none => rw [dictGet_append_of_none d k v k' hd, if_neg hkk]
      | some w => rw [dictGet_append_of_some d k v k' w hd]

theorem dictGet_eq_none_of_not_mem (l : StyleMap) (k : String)
    (h : k ∉ l.map Prod.fst) :
    dictGet l k = none := by
  induction l with
  | nil => rfl
  | cons p rest ih =>
      obtain ⟨a, b⟩ := p
      simp only [List.map_cons, List.mem_cons] at h
      push_neg at h
      rw [dictGet_cons, if_neg (fun hk => h.1 hk.symm)]
      exact ih h.2

theorem dictGet_pyDictUpdate (d c : StyleMap) (k : String)
    (hc : (c.map Prod.fst).Nodup) :
    dictGet (pyDictUpdate d c) k =
      match dictGet c k with
      | some v => some v
      | none => dictGet d k := by
  induction c generalizing d with
  | nil => rfl
  | cons p t ih =>
      obtain ⟨a, b⟩ := p
      simp only [List.map_cons, List.nodup_cons] at hc
      show dictGet (pyDictUpdate (dictSet d a b) t) k = _
      rw [ih (dictSet d a b) hc.2]
      by_cases hk : a = k
      · have ht : dictGet t k = none :=
          dictGet_eq_none_of_not_mem t k (hk ▸ hc.1)
        rw [ht, dictGet_dictSet, if_pos hk, dictGet_cons, if_pos hk]
      · rw [dictGet_dictSet, if_neg hk, dictGet_cons, if_neg hk]

-- ### Structural lemmas about extract_fill_and_stroke

theorem extract_fill_and_stroke_gradient (e : Elem) (grads : List (String × Elem))
    (w h : ℚ) (dflt : String) (inh : Option StyleMap) :
    (extract_fill_and_stroke e grads w h dflt inh).gradient =
      if (handle_gradient (fill_value e inh) grads w h).1 then
        some (handle_gradient (fill_value e inh) grads w h).2
      else none := by
  simp only [extract_fill_and_stroke]
  split_ifs <;> rfl

theorem extract_fill_and_stroke_fillColor (e : Elem) (grads : List (String × Elem))
    (w h : ℚ) (dflt : String) (inh : Option StyleMap) :
    (extract_fill_and_stroke e grads w h dflt inh).fillColor =
      if (handle_gradient (fill_value e inh) grads w h).1 then none
      else some (if fill_value e inh ≠ "" then fill_value e inh else dflt) := by
  simp only [extract_fill_and_stroke]
  split_ifs <;> rfl

theorem pyStartsWith_url_ne_empty (s : String) (h : pyStartsWith s "url(" = true) :
    s ≠ "" := by
  intro he
  rw [he] at h
  exact absurd h (by decide)

theorem handle_gradient_of_not_url (fillv : String) (grads : List (String × Elem))
    (w h : ℚ) (hnot : pyStartsWith fillv "url(" = false) :
    handle_gradient fillv grads w h = (false, none) := by
  simp [handle_gradient, hnot]

theorem parse_style_empty : parse_style "" = [] := rfl

-- ### Claim theorems

/-- C6: a gradient stop with `stop-color` `#112233` and `stop-opacity`
`0.5` resolves to `#7F112233`: the opacity is scaled by 255, truncated
via `int` (`int(0.5*255) = 127 = 0x7F`), formatted as two uppercase hex
digits, and prepended as an alpha to the 7-character `#RRGGBB` color. -/
theorem stop_opacity_compositing :
    extract_stop_color ⟨"stop", [("stop-color", "#112233"), ("stop-opacity", "0.5")], []⟩ =
      "#7F112233" := by decide

/-- C2: evaluation of the circle radius computation at the failing
input.  For the circle `cx=0, cy=0, r=3` under the pure translation
`(1, 0, 0, 1, 1, 0)` the code computes a squared radius of `16`, so the
emitted radius is `4 ≠ 3`: `convert_circle_element` re-applies the
transform to a point offset from the *already transformed* center
(`px, py = apply_transform_to_point(cx + r, cy, ...)` after `cx, cy`
were overwritten), so even a pure translation changes the radius,
contradicting both the claim and the code's own comment that the
distance of a point *on the circle* is measured. -/
theorem circle_translation_radius_eval :
    circle_transformed_radius_sq 0 0 3 (1, 0, 0, 1, 1, 0) = 16 ∧
      (3 : ℚ) ^ 2 = 9 ∧ (16 : ℚ) ≠ 9 := by decide

/-- C4 counterexample: the rect `x=0 y=0 width=10 height=5` under the
identity transform does NOT produce the path string
`M 0 0 L 10 0 L 10 5 L 0 5 Z`: `convert_rect_element` interpolates the
raw floats with `str.format`, which renders whole numbers with a
decimal point. -/
theorem rect_pathdata_counterexample :
    (convert_rect_element ⟨"rect", [("x", "0"), ("y", "0"), ("width", "10"), ("height", "5")], []⟩
        [] 24 24 idMatrix none).map ShapeResult.pathData ≠
      some "M 0 0 L 10 0 L 10 5 L 0 5 Z" := by decide

/-- C4 amended: the rect `x=0 y=0 width=10 height=5` under the identity
transform produces exactly
`M 0.0 0.0 L 10.0 0.0 L 10.0 5.0 L 0.0 5.0 Z` — coordinates are
rendered with Python float `str`, which keeps a decimal point on whole
numbers; the whole-number formatting rule (`_fmt_number`) is not applied
by the rect converter. -/
theorem rect_pathdata_float_repr :
    (convert_rect_element ⟨"rect", [("x", "0"), ("y", "0"), ("width", "10"), ("height", "5")], []⟩
        [] 24 24 idMatrix none).map ShapeResult.pathData =
      some "M 0.0 0.0 L 10.0 0.0 L 10.0 5.0 L 0.0 5.0 Z" := by decide

/-- C7 counterexample: a fill referencing a known linear gradient with
zero `<stop>` children does not make the gradient structure absent, and
the element does not fall back to a solid fill: the output carries a
`gradient` key holding the empty structure (`some none`) and no
`android:fillColor`. -/
theorem gradient_zero_stops_counterexample :
    (extract_fill_and_stroke ⟨"path", [("fill", "url(#g0)")], []⟩
        [("g0", ⟨"{http://www.w3.org/2000/svg}linearGradient", [("id", "g0")], []⟩)]
        24 24 "#000000" none).gradient = some none ∧
      (extract_fill_and_stroke ⟨"path", [("fill", "url(#g0)")], []⟩
        [("g0", ⟨"{http://www.w3.org/2000/svg}linearGradient", [("id", "g0")], []⟩)]
        24 24 "#000000" none).fillColor = none := by decide

/-- C3: a linear gradient with at least one stop child converts to a
gradient structure with exactly two stop items, the colors of the first
and the last stop child in document order, at offsets `"0"` and `"1"`,
regardless of how many intermediate stops exist. -/
theorem linear_gradient_two_stop_reduction (g : Elem) (w h : ℚ) (s : Elem)
    (rest : List Elem) (hstops : g.stops = s :: rest) :
    ∃ gs, convert_linear_gradient g w h = some gs ∧
      gs.items.length = 2 ∧
      gs.items = [⟨"0", extract_stop_color s⟩,
        ⟨"1", extract_stop_color ((s :: rest).getLast (List.cons_ne_nil s rest))⟩] := by
  unfold convert_linear_gradient
  rw [hstops]
  exact ⟨_, rfl, rfl, rfl⟩

/-- C3 witness: a 5-stop linear gradient yields exactly two items, the
colors of stops 1 and 5. -/
theorem linear_gradient_two_stop_reduction_witness :
    ∃ gs,
      convert_linear_gradient
        ⟨"linearGradient", [],
          [⟨"stop", [("stop-color", "#111111")], []⟩,
           ⟨"stop", [("stop-color", "#222222")], []⟩,
           ⟨"stop", [("stop-color", "#333333")], []⟩,
           ⟨"stop", [("stop-color", "#444444")], []⟩,
           ⟨"stop", [("stop-color", "#555555")], []⟩]⟩ 24 24 = some gs ∧
      gs.items.length = 2 ∧
      gs.items = [⟨"0", "#111111"⟩, ⟨"1", "#555555"⟩] := by
  obtain ⟨gs, hgs, hlen, hitems⟩ :=
    linear_gradient_two_stop_reduction
      ⟨"linearGradient", [],
        [⟨"stop", [("stop-color", "#111111")], []⟩,
         ⟨"stop", [("stop-color", "#222222")], []⟩,
         ⟨"stop", [("stop-color", "#333333")], []⟩,
         ⟨"stop", [("stop-color", "#444444")], []⟩,
         ⟨"stop", [("stop-color", "#555555")], []⟩]⟩ 24 24
      ⟨"stop", [("stop-color", "#111111")], []⟩
      [⟨"stop", [("stop-color", "#222222")], []⟩,
       ⟨"stop", [("stop-color", "#333333")], []⟩,
       ⟨"stop", [("stop-color", "#444444")], []⟩,
       ⟨"stop", [("stop-color", "#555555")], []⟩] rfl
  refine ⟨gs, hgs, hlen, ?_⟩
  rw [hitems]
  decide

-- ### Store lemmas and C8

theorem set_append_last (σ : Store) (a b : StyleMap) :
    (σ ++ [a]).set σ.length b = σ ++ [b] := by
  induction σ with
  | nil => rfl
  | cons x t ih =>
      show x :: ((t ++ [a]).set t.length b) = x :: (t ++ [b])
      rw [ih]

theorem getD_append_left (σ : Store) (x : StyleMap) (i : Nat) (h : i < σ.length) :
    (σ ++ [x]).getD i [] = σ.getD i [] := by
  induction σ generalizing i with
  | nil => exact absurd h (by simp)
  | cons y t ih =>
      cases i with
      | zero => rfl
      | succ j =>
          show (t ++ [x]).getD j [] = t.getD j []
          exact ih j (Nat.lt_of_succ_lt_succ h)

theorem getD_append_length (σ : Store) (x : StyleMap) :
    (σ ++ [x]).getD σ.length [] = x := by
  induction σ with
  | nil => rfl
  | cons y t ih =>
      show (t ++ [x]).getD t.length [] = x
      exact ih

/-- C8: `merge_styles` returns a fresh dict (a new store address,
distinct from both arguments) in which child entries override parent
entries of the same key and unset child keys retain parent values, and
the parent dict is left holding exactly the entries it held before the
merge.  The `Nodup` hypothesis is the well-formedness of a Python dict's
key set. -/
theorem merge_styles_no_mutation (σ : Store) (p c : Nat) (k : String)
    (hp : p < σ.length) (hc : c < σ.length)
    (hnodup : ((σ.getD c []).map Prod.fst).Nodup) :
    (merge_styles σ p c).1.getD p [] = σ.getD p [] ∧
      (merge_styles σ p c).2 ≠ p ∧ (merge_styles σ p c).2 ≠ c ∧
      dictGet ((merge_styles σ p c).1.getD (merge_styles σ p c).2 []) k =
        match dictGet (σ.getD c []) k with
        | some v => some v
        | none => dictGet (σ.getD p []) k := by
  have hfst : (merge_styles σ p c).1 =
      σ ++ [pyDictUpdate (σ.getD p []) (σ.getD c [])] := by
    show ((σ ++ [σ.getD p []]).set σ.length
      (pyDictUpdate (σ.getD p []) (σ.getD c []))) = _
    exact set_append_last σ _ _
  have hsnd : (merge_styles σ p c).2 = σ.length := rfl
  refine ⟨?_, ?_, ?_, ?_⟩
  · rw [hfst, getD_append_left σ _ p hp]
  · rw [hsnd]; exact (Nat.ne_of_lt hp).symm
  · rw [hsnd]; exact (Nat.ne_of_lt hc).symm
  · rw [hfst, hsnd, getD_append_length]
    exact dictGet_pyDictUpdate (σ.getD p []) (σ.getD c []) k hnodup

/-- C8 witness: merging parent `{fill: red, s: 1}` with child
`{fill: blue}` leaves the parent untouched, allocates a fresh dict, and
resolves `fill` to the child's value. -/
theorem merge_styles_no_mutation_witness :
    (merge_styles [[("fill", "red"), ("s", "1")], [("fill", "blue")]] 0 1).1.getD 0 [] =
        [("fill", "red"), ("s", "1")] ∧
      (merge_styles [[("fill", "red"), ("s", "1")], [("fill", "blue")]] 0 1).2 ≠ 0 ∧
      (merge_styles [[("fill", "red"), ("s", "1")], [("fill", "blue")]] 0 1).2 ≠ 1 ∧
      dictGet ((merge_styles [[("fill", "red"), ("s", "1")], [("fill", "blue")]] 0 1).1.getD
          (merge_styles [[("fill", "red"), ("s", "1")], [("fill", "blue")]] 0 1).2 [])
        "fill" = some "blue" := by
  have h := merge_styles_no_mutation [[("fill", "red"), ("s", "1")], [("fill", "blue")]]
    0 1 "fill" (by decide) (by decide) (by decide)
  exact ⟨h.1, h.2.1, h.2.2.1, h.2.2.2⟩

/-- C10: in `convert_group_element`, a group's bare `fill` attribute is
injected into the group's style map (only because the inline style has
no `fill` entry) before the merge with the inherited style; the merged
style the children inherit equals the inherited style updated with the
inline style extended by that fill — exactly what a group whose inline
style already contained that `fill` entry (and no fill attribute) would
produce. -/
theorem group_fill_attr_injection (e : Elem) (inh : StyleMap) (f s : String)
    (hf : dictGet e.attrib "fill" = some f)
    (hs : dictGet e.attrib "style" = some s)
    (hnofill : dictGet (parse_style s) "fill" = none) :
    group_merged_style e inh = pyDictUpdate inh (dictSet (parse_style s) "fill" f) ∧
      ∀ (e₂ : Elem) (s₂ : String),
        dictGet e₂.attrib "style" = some s₂ →
        dictGet e₂.attrib "fill" = none →
        parse_style s₂ = dictSet (parse_style s) "fill" f →
        group_merged_style e₂ inh = group_merged_style e inh := by
  have h1 : group_merged_style e inh =
      pyDictUpdate inh (dictSet (parse_style s) "fill" f) := by
    unfold group_merged_style
    rw [attrGetD, attrGetD, hf, hs]
    simp [hs, hnofill, merge_styles_val]
  refine ⟨h1, ?_⟩
  intro e₂ s₂ hs₂ hf₂ hps₂
  rw [h1]
  unfold group_merged_style
  rw [attrGetD, hs₂]
  simp only [hs₂, Option.isSome_some, if_pos, Option.getD_some, hps₂, hf₂]
  rw [dictGet_dictSet]
  simp [merge_styles_val]

-- ### C10 witness

/-- C10 witness: a group with `fill="red"` as a bare attribute and an
empty inline style merges to the same style a group with inline style
`fill:red` and no fill attribute would produce, overriding an inherited
fill. -/
theorem group_fill_attr_injection_witness :
    group_merged_style ⟨"g", [("fill", "red"), ("style", "")], []⟩
        [("fill", "green"), ("stroke", "black")] =
      [("fill", "red"), ("stroke", "black")] ∧
    group_merged_style ⟨"g", [("style", "fill:red")], []⟩
        [("fill", "green"), ("stroke", "black")] =
      group_merged_style ⟨"g", [("fill", "red"), ("style", "")], []⟩
        [("fill", "green"), ("stroke", "black")] := by
  have h := group_fill_attr_injection ⟨"g", [("fill", "red"), ("style", "")], []⟩
    [("fill", "green"), ("stroke", "black")] "red" "" (by decide) (by decide) (by decide)
  refine ⟨?_, h.2 ⟨"g", [("style", "fill:red")], []⟩ "fill:red" (by decide) (by decide)
    (by decide)⟩
  rw [h.1]
  decide

-- ### C9

/-- C9: `convert_ellipse_element` resolves its fill solely from the
element's own inline style and fill attribute: the `inherited_style`
parameter is never consulted (first conjunct: the result is the same for
any two inherited styles), so an ellipse with no fill of its own
resolves to the default `#000000` whatever the inherited style carries
(second conjunct) — unlike `extract_fill_and_stroke`, used by every
other shape converter, which resolves the same element to the inherited
fill (third conjunct). -/
theorem ellipse_ignores_inherited_style :
    (∀ (e : Elem) (grads : List (String × Elem)) (w h : ℚ)
        (inh₁ inh₂ : Option StyleMap),
        convert_ellipse_element e grads w h inh₁ =
          convert_ellipse_element e grads w h inh₂) ∧
    (∀ (e : Elem) (grads : List (String × Elem)) (w h : ℚ)
        (inh : Option StyleMap) (r : ShapeResult),
        dictGet e.attrib "fill" = none → dictGet e.attrib "style" = none →
        convert_ellipse_element e grads w h inh = some r →
        r.fs.fillColor = some "#000000") ∧
    (∀ (e : Elem) (grads : List (String × Elem)) (w h : ℚ) (c : String),
        dictGet e.attrib "fill" = none → dictGet e.attrib "style" = none →
        c ≠ "" → pyStartsWith c "url(" = false →
        (extract_fill_and_stroke e grads w h "#000000"
          (some [("fill", c)])).fillColor = some c) := by
  refine ⟨fun e grads w h inh₁ inh₂ => rfl, ?_, ?_⟩
  · intro e grads w h inh r hfill hstyle hconv
    have hf : attrGetD e "fill" "" = "" := by rw [attrGetD, hfill]; rfl
    have hs : attrGetD e "style" "" = "" := by rw [attrGetD, hstyle]; rfl
    have hurl : pyStartsWith "" "url(" = false := rfl
    unfold convert_ellipse_element at hconv
    cases hcx : parseFloat? (attrGetD e "cx" "0") with
    | none => rw [hcx] at hconv; simp at hconv
    | some cx =>
      cases hcy : parseFloat? (attrGetD e "cy" "0") with
      | none => rw [hcx, hcy] at hconv; simp at hconv
      | some cy =>
        cases hrx : parseFloat? (attrGetD e "rx" "0") with
        | none => rw [hcx, hcy, hrx] at hconv; simp at hconv
        | some rx =>
          cases hry : parseFloat? (attrGetD e "ry" "0") with
          | none => rw [hcx, hcy, hrx, hry] at hconv; simp at hconv
          | some ry =>
            rw [hcx, hcy, hrx, hry] at hconv
            simp [hf, hs, hurl] at hconv
            rw [← hconv]
  · intro e grads w h c hfill hstyle hc hurl
    have hfv : fill_value e (some [("fill", c)]) = c := by
      unfold fill_value
      rw [attrGetD, attrGetD, hfill, hstyle]
      simp [dictGet_cons]
    rw [extract_fill_and_stroke_fillColor, hfv,
      handle_gradient_of_not_url c grads w h hurl]
    simp [hc]

/-- C9 witness: an attribute-less ellipse inside a merged style carrying
`fill: red` still resolves to `#000000`, while `extract_fill_and_stroke`
on the same element resolves to the inherited `red`. -/
theorem ellipse_ignores_inherited_style_witness :
    (convert_ellipse_element ⟨"ellipse", [], []⟩ [] 24 24
        (some [("fill", "red")])).map (fun r => r.fs.fillColor) =
      some (some "#000000") ∧
    (extract_fill_and_stroke ⟨"ellipse", [], []⟩ [] 24 24 "#000000"
      (some [("fill", "red")])).fillColor = some "red" := by
  refine ⟨?_, ellipse_ignores_inherited_style.2.2 ⟨"ellipse", [], []⟩ [] 24 24 "red"
    rfl rfl (by decide) (by decide)⟩
  cases hE : convert_ellipse_element ⟨"ellipse", [], []⟩ [] 24 24
      (some [("fill", "red")]) with
  | none => exact absurd hE (by decide)
  | some r =>
      have := ellipse_ignores_inherited_style.2.1 ⟨"ellipse", [], []⟩ [] 24 24
        (some [("fill", "red")]) r rfl rfl hE
      simp [this]

-- ### C7 amended

/-- C7 amended: a `url(#id)` fill whose id is unknown in the gradient
registry yields an absent gradient (no `gradient` key) and falls back to
the plain solid-fill attribute holding the literal fill string; a
`url(#id)` fill referencing a known linear or radial gradient definition
with zero stop children instead produces a present `gradient` key
holding the empty structure and no solid-fill attribute.  Both paths are
total (the embedding is a function), so neither raises. -/
theorem gradient_reference_fallback :
    (∀ (e : Elem) (grads : List (String × Elem)) (w h : ℚ) (dflt : String)
        (inh : Option StyleMap),
        pyStartsWith (fill_value e inh) "url(" = true →
        dictGet grads (extract_grad_id (fill_value e inh)) = none →
        (extract_fill_and_stroke e grads w h dflt inh).gradient = none ∧
          (extract_fill_and_stroke e grads w h dflt inh).fillColor =
            some (fill_value e inh)) ∧
    (∀ (e : Elem) (grads : List (String × Elem)) (w h : ℚ) (dflt : String)
        (inh : Option StyleMap) (g : Elem),
        pyStartsWith (fill_value e inh) "url(" = true →
        dictGet grads (extract_grad_id (fill_value e inh)) = some g →
        (tagLocal g.tag = "lineargradient" ∨ tagLocal g.tag = "radialgradient") →
        g.stops = [] →
        (extract_fill_and_stroke e grads w h dflt inh).gradient = some none ∧
          (extract_fill_and_stroke e grads w h dflt inh).fillColor = none) := by
  constructor
  · intro e grads w h dflt inh h1 h2
    have hg : handle_gradient (fill_value e inh) grads w h = (false, none) := by
      simp [handle_gradient, h1, h2]
    rw [extract_fill_and_stroke_gradient, extract_fill_and_stroke_fillColor, hg]
    simp [pyStartsWith_url_ne_empty (fill_value e inh) h1]
  · intro e grads w h dflt inh g h1 h2 htag hstops
    have hg : handle_gradient (fill_value e inh) grads w h = (true, none) := by
      rcases htag with hl | hr
      · have hlin : convert_linear_gradient g w h = none := by
          unfold convert_linear_gradient
          rw [hstops]
        simp [handle_gradient, h1, h2, hl, hlin]
      · have hrad : convert_radial_gradient g w h = none := by
          unfold convert_radial_gradient
          rw [hstops]
        simp [handle_gradient, h1, h2, hr, hrad]
    rw [extract_fill_and_stroke_gradient, extract_fill_and_stroke_fillColor, hg]
    simp

/-- C7 witness: a fill referencing the unknown id `nope` in an empty
registry keeps no gradient key and falls back to the literal solid
fill. -/
theorem gradient_reference_fallback_witness :
    (extract_fill_and_stroke ⟨"path", [("fill", "url(#nope)")], []⟩ [] 24 24
        "#000000" none).gradient = none ∧
      (extract_fill_and_stroke ⟨"path", [("fill", "url(#nope)")], []⟩ [] 24 24
        "#000000" none).fillColor = some "url(#nope)" := by
  have h := gradient_reference_fallback.1 ⟨"path", [("fill", "url(#nope)")], []⟩
    [] 24 24 "#000000" none (by decide) rfl
  refine ⟨h.1, ?_⟩
  rw [h.2]
  decide

-- ### C1

theorem fill_value_def (e : Elem) (inh : Option StyleMap) :
    fill_value e inh =
      (let fill0 :=
        if attrGetD e "style" "" ≠ "" then
          match dictGet (parse_style (attrGetD e "style" "")) "fill" with
          | some v => v
          | none => attrGetD e "fill" ""
        else attrGetD e "fill" ""
      if fill0 = "" then
        match inh with
        | some m =>
            match dictGet m "fill" with
            | some v => v
            | none => fill0
        | none => fill0
      else fill0) := rfl

theorem fill_value_spec (e : Elem) (inh : Option StyleMap) (dflt : String)
    (hstyle : dictGet (parse_style (attrGetD e "style" "")) "fill" ≠ some "") :
    (if fill_value e inh ≠ "" then fill_value e inh else dflt) =
      spec_fill_precedence (dictGet (parse_style (attrGetD e "style" "")) "fill")
        (attrGetD e "fill" "") (inh.bind (fun m => dictGet m "fill")) dflt := by
  unfold spec_fill_precedence
  rw [fill_value_def]
  by_cases hst : attrGetD e "style" "" = ""
  · have hinl : dictGet (parse_style (attrGetD e "style" "")) "fill" = none := by
      rw [hst]
      rfl
    rw [hinl]
    simp only [hst, ne_eq, not_true_eq_false, if_false]
    cases inh with
    | none => by_cases hA : attrGetD e "fill" "" = "" <;> simp [hA]
    | some m =>
        cases hm : dictGet m "fill" with
        | none => by_cases hA : attrGetD e "fill" "" = "" <;> simp [hA, hm]
        | some wv => by_cases hA : attrGetD e "fill" "" = "" <;> simp [hA, hm]
  · cases hin : dictGet (parse_style (attrGetD e "style" "")) "fill" with
    | some v =>
        have hv : v ≠ "" := fun he => hstyle (by rw [hin, he])
        simp [hst, hin, hv]
    | none =>
        simp only [hst, ne_eq, not_false_eq_true, if_true, hin]
        cases inh with
        | none => by_cases hA : attrGetD e "fill" "" = "" <;> simp [hA]
        | some m =>
            cases hm : dictGet m "fill" with
            | none => by_cases hA : attrGetD e "fill" "" = "" <;> simp [hA, hm]
            | some wv => by_cases hA : attrGetD e "fill" "" = "" <;> simp [hA, hm]

/-- C1: for a non-gradient fill, the resolved solid fill follows the
precedence inline-style `fill` entry > `fill` attribute > inherited
style's `fill` > `defaultFill`, where an empty attribute or inherited
value counts as unset (hypothesis: a present inline entry is nonempty,
matching the code, which would otherwise discard the attribute as
well). -/
theorem fill_precedence_resolution (e : Elem) (grads : List (String × Elem))
    (w h : ℚ) (dflt : String) (inh : Option StyleMap)
    (hstyle : dictGet (parse_style (attrGetD e "style" "")) "fill" ≠ some "")
    (hurl : pyStartsWith (fill_value e inh) "url(" = false) :
    (extract_fill_and_stroke e grads w h dflt inh).fillColor =
      some (spec_fill_precedence
        (dictGet (parse_style (attrGetD e "style" "")) "fill")
        (attrGetD e "fill" "") (inh.bind (fun m => dictGet m "fill")) dflt) := by
  rw [extract_fill_and_stroke_fillColor,
    handle_gradient_of_not_url (fill_value e inh) grads w h hurl]
  simp only [Bool.false_eq_true, if_false]
  exact congrArg some (fill_value_spec e inh dflt hstyle)

/-- C1 witness: inherited style `{fill: red}`, element attribute
`fill=blue`, no inline style — the resolved fill is `blue`. -/
theorem fill_precedence_resolution_witness :
    (extract_fill_and_stroke ⟨"path", [("fill", "blue")], []⟩ [] 24 24 "#000000"
      (some [("fill", "red")])).fillColor = some "blue" := by
  have h := fill_precedence_resolution ⟨"path", [("fill", "blue")], []⟩ [] 24 24
    "#000000" (some [("fill", "red")]) (by decide) (by decide)
  rw [h]
  decide

-- ### C5

/-- C5: `get_viewport_dimensions` first tries the `viewBox` attribute
(3rd and 4th whitespace-separated tokens parsed as float width/height);
on any failure of that path (attribute absent or empty, token count not
4, or either token unparseable) it falls through to the width/height
fallback, which strips every literal `px` substring from the
width/height attributes and parses both as floats, returning `(24, 24)`
when either fails.  The last two conjuncts are the claim's instances:
no `viewBox` with `width="48px"`, `height="48px"` gives `(48, 48)`, and
no attributes at all give `(24, 24)`. -/
theorem viewport_dimension_chain :
    (∀ (attrs : List (String × String)) (vb t0 t1 t2 t3 : String) (w h : ℚ),
        dictGet attrs "viewBox" = some vb →
        pySplitWs vb = [t0, t1, t2, t3] →
        parseFloat? t2 = some w → parseFloat? t3 = some h →
        get_viewport_dimensions attrs = (w, h)) ∧
    (∀ (attrs : List (String × String)),
        (∀ vb, dictGet attrs "viewBox" = some vb →
          vb = "" ∨ (pySplitWs vb).length ≠ 4 ∨
          (∃ t0 t1 t2 t3, pySplitWs vb = [t0, t1, t2, t3] ∧
            (parseFloat? t2 = none ∨ parseFloat? t3 = none))) →
        get_viewport_dimensions attrs = viewport_fallback attrs) ∧
    (∀ (attrs : List (String × String)) (w h : ℚ),
        parseFloat? (pyReplace ((dictGet attrs "width").getD "24") "px" "") = some w →
        parseFloat? (pyReplace ((dictGet attrs "height").getD "24") "px" "") = some h →
        viewport_fallback attrs = (w, h)) ∧
    (∀ (attrs : List (String × String)),
        parseFloat? (pyReplace ((dictGet attrs "width").getD "24") "px" "") = none ∨
        parseFloat? (pyReplace ((dictGet attrs "height").getD "24") "px" "") = none →
        viewport_fallback attrs = (24, 24)) ∧
    get_viewport_dimensions [("width", "48px"), ("height", "48px")] = (48, 48) ∧
    get_viewport_dimensions [] = (24, 24) := by
  refine ⟨?_, ?_, ?_, ?_, by decide, by decide⟩
  · intro attrs vb t0 t1 t2 t3 w h hvb hsplit h2 h3
    have hne : vb ≠ "" := by
      intro he
      subst he
      rw [show pySplitWs "" = [] from rfl] at hsplit
      exact List.noConfusion hsplit
    unfold get_viewport_dimensions
    rw [hvb]
    simp [hne, hsplit, h2, h3]
  · intro attrs hfail
    unfold get_viewport_dimensions
    cases hvb : dictGet attrs "viewBox" with
    | none => rfl
    | some vb =>
        rcases hfail vb hvb with he | hlen | ⟨t0, t1, t2, t3, hsplit, hpar⟩
        · simp [he]
        · by_cases hne : vb = ""
          · simp [hne]
          · simp [hne, hlen]
        · by_cases hne : vb = ""
          · simp [hne]
          · rcases hpar with hp2 | hp3
            · simp [hne, hsplit, hp2]
            · cases hp2 : parseFloat? t2 with
              | none => simp [hne, hsplit, hp2]
              | some w2 => simp [hne, hsplit, hp2, hp3]
  · intro attrs w h h1 h2
    unfold viewport_fallback
    rw [h1, h2]
  · intro attrs hor
    unfold viewport_fallback
    rcases hor with h1 | h2
    · rw [h1]
    · cases h1 : parseFloat? (pyReplace ((dictGet attrs "width").getD "24") "px" "") with
      | none => rfl
      | some w => rw [h2]

/-- C5 witness: a `viewBox` of `0 0 16 9` resolves through the primary
path to `(16, 9)`. -/
theorem viewport_dimension_chain_witness :
    get_viewport_dimensions [("viewBox", "0 0 16 9")] = (16, 9) :=
  viewport_dimension_chain.1 [("viewBox", "0 0 16 9")] "0 0 16 9" "0" "0" "16" "9"
    16 9 (by decide) (by decide) (by decide) (by decide)
